import Mathlib

/-!
Shallow embedding of the flock-server ingestion pipeline
(src/src/flock_server/api.py and src/gateway/app.py).

JSON values are modelled by `JValue`; a Python dict is an association
list with unique keys in insertion order (`Doc`).  Python statements that
can raise an exception are modelled with `Option` (`none` = the statement
raises and the request fails with an unhandled error).
-/

/-- A JSON-like value, as produced by `request.json` in Flask.
Numbers are modelled as integers (the fields the pipeline inspects are
epoch seconds and counters). -/
inductive JValue where
  | null : JValue
  | bool : Bool → JValue
  | num : Int → JValue
  | str : String → JValue
  | arr : List JValue → JValue
  | obj : List (String × JValue) → JValue

/-- A Python dict with string keys: association list, first occurrence wins. -/
abbrev Doc := List (String × JValue)

/-- `key in doc` / `doc[key]` lookup: first binding of the key, if any. -/
def objLookup (d : Doc) (k : String) : Option JValue :=
  match d with
  | [] => none
  | (k', v) :: rest => if k' == k then some v else objLookup rest k

/-- `doc[key] = value`: replace the first binding of the key in place,
or append a new binding at the end (Python dict assignment semantics). -/
def objSet (d : Doc) (k : String) (v : JValue) : Doc :=
  match d with
  | [] => [(k, v)]
  | (k', v') :: rest => if k' == k then (k, v) :: rest else (k', v') :: objSet rest k v

/-- Python truthiness of a JSON value (`if not docs: ...`). -/
def truthy : JValue → Bool
  | JValue.null => false
  | JValue.bool b => b
  | JValue.num n => n != 0
  | JValue.str s => !s.isEmpty
  | JValue.arr xs => !xs.isEmpty
  | JValue.obj fs => !fs.isEmpty

/-! ## Gateway credential check (src/gateway/app.py)

The gateway keeps a dict `tokens` mapping username to auth token
(`Tokens.tokens`).  `exists`, `get` and `check_auth` are translated
directly. -/

/-- The token store: the `tokens` dict of `gateway/app.py`. -/
abbrev TokenStore := List (String × String)

/-- `Tokens.get`: the stored token for a username, `None` when absent. -/
def tokens_get (T : TokenStore) (u : String) : Option String :=
  match T with
  | [] => none
  | (u', t) :: rest => if u' == u then some t else tokens_get rest u

/-- `Tokens.exists`: membership of the username in the token dict. -/
def tokens_exists (T : TokenStore) (u : String) : Bool :=
  (tokens_get T u).isSome

/-- `check_auth(username, password)` of the gateway:
`tokens.exists(username) and password == tokens.get(username)`. -/
def check_auth (T : TokenStore) (username password : String) : Bool :=
  tokens_exists T username &&
    (match tokens_get T username with
     | some t => password == t
     | none => false)

/-- C5: the gateway credential check succeeds exactly when a principal
with that name is registered and its stored token equals the supplied
secret; it is false for unknown names and for any wrong secret. -/
theorem check_auth_iff (T : TokenStore) (u p : String) :
    check_auth T u p = true ↔ tokens_get T u = some p := by
  unfold check_auth tokens_exists
  cases h : tokens_get T u with
  | none => simp
  | some t =>
    simp only [Option.isSome_some, Bool.true_and, beq_iff_eq]
    constructor
    · intro hb
      rw [hb]
    · intro hs
      exact (Option.some_inj.mp hs).symm

/-! ## Registration (src/src/flock_server/api.py, `register`)

The user index is modelled as a list of `User` records in insertion
order; an Elasticsearch `match` query on the unique `username` field is
a filter on that list. -/

/-- A stored principal: the `User` document of the ingestion server. -/
structure User where
  username : String
  name : String
  token : String
deriving DecidableEq

/-- Result of a `/register` call: an API error or the fresh auth token. -/
inductive RegResult where
  | err : String → RegResult
  | ok : String → RegResult
deriving DecidableEq

/-- Outcome of `/register`: HTTP-level result, the user index afterwards,
and the keybase notification events emitted during the call. -/
structure RegisterOutcome where
  result : RegResult
  users : List User
  notifs : List (String × JValue)

/-- The characters a username may contain (`valid_chars` in `register`). -/
def register_valid_chars : List Char :=
  "abcdefghijklmnopqrstuvwxyzABCDEFGHIJKLMNOPQRSTUVWXYZ01234567890_-".data

/-- The characters stripped from a display name (`invalid_chars`). -/
def register_invalid_chars : List Char :=
  "`\x7b\x7d!@#$%^&*_".data

/-- Display-name sanitisation: drop every character of `invalid_chars`. -/
def stripName (name : String) : String :=
  String.mk (name.data.filter (fun c => !(register_invalid_chars.contains c)))

/-- `register` of api.py: reject a missing or ill-formed username, strip
the display name, reject (with a notification) a username that is
already registered, otherwise store the new user and return its token. -/
def register (users : List User) (username name0 newToken : String) : RegisterOutcome :=
  if username.isEmpty then
    ⟨RegResult.err "You must provide a username", users, []⟩
  else if !(username.data.all (fun c => register_valid_chars.contains c)) then
    ⟨RegResult.err "Usernames must only contain letters, numbers, \x27-\x27, or \x27_\x27",
     users, []⟩
  else
    let name := stripName name0
    if !(users.filter (fun u => u.username == username)).isEmpty then
      ⟨RegResult.err ("Your computer (" ++ username ++ ") is already registered with this server"),
       users,
       [("user_already_exists",
         JValue.obj [("username", JValue.str username), ("name", JValue.str name)])]⟩
    else
      ⟨RegResult.ok newToken,
       users ++ [⟨username, name, newToken⟩],
       [("user_registered",
         JValue.obj [("username", JValue.str username), ("name", JValue.str name)])]⟩

/-- C6: registering a username that is already present returns the
duplicate-registration error, emits exactly one `user_already_exists`
notification, and leaves the user index (in particular the first
registration's token) unchanged. -/
theorem register_duplicate (users : List User) (username name0 newToken : String)
    (h1 : username ≠ "")
    (h2 : username.data.all (fun c => register_valid_chars.contains c) = true)
    (h3 : ∃ u ∈ users, u.username = username) :
    register users username name0 newToken =
      ⟨RegResult.err ("Your computer (" ++ username ++ ") is already registered with this server"),
       users,
       [("user_already_exists",
         JValue.obj [("username", JValue.str username),
                     ("name", JValue.str (stripName name0))])]⟩ := by
  have hne : username.isEmpty = false := by
    cases hu : username.isEmpty
    · rfl
    · exact absurd ((String.isEmpty_iff username).mp hu) h1
  obtain ⟨u, hu, huname⟩ := h3
  have hfil : u ∈ users.filter (fun v => v.username == username) :=
    List.mem_filter.mpr ⟨hu, by simp [huname]⟩
  have hfne : (users.filter (fun v => v.username == username)).isEmpty = false := by
    cases hh : users.filter (fun v => v.username == username) with
    | nil => rw [hh] at hfil; cases hfil
    | cons a l => rfl
  simp only [register, hne, h2, hfne, Bool.not_true, Bool.not_false,
    if_false, if_true, Bool.false_eq_true, ite_false, ite_true]

/-- Concrete instance of `register_duplicate`. -/
theorem register_duplicate_witness :
    register [⟨"alice", "Alice", "tok1"⟩] "alice" "Bob" "tok2" =
      ⟨RegResult.err "Your computer (alice) is already registered with this server",
       [⟨"alice", "Alice", "tok1"⟩],
       [("user_already_exists",
         JValue.obj [("username", JValue.str "alice"), ("name", JValue.str "Bob")])]⟩ :=
  register_duplicate [⟨"alice", "Alice", "tok1"⟩] "alice" "Bob" "tok2"
    (by decide) (by decide) ⟨⟨"alice", "Alice", "tok1"⟩, List.mem_cons_self _ _, rfl⟩

/-! ## Timestamp conversion (the `unixTime` step of `submit`)

`int(doc["unixTime"])` succeeds on integers, booleans and decimal
numeral strings and raises otherwise; `datetime.utcfromtimestamp`
accepts epoch seconds for the years 1..9999 and raises outside that
range. -/

/-- Decimal digit value. -/
def digitVal (c : Char) : Option Nat :=
  if '0' ≤ c ∧ c ≤ '9' then some (c.toNat - '0'.toNat) else none

/-- Accumulating decimal reader; fails on any non-digit character. -/
def digitsToNat (cs : List Char) (acc : Nat) : Option Nat :=
  match cs with
  | [] => some acc
  | c :: rest =>
    match digitVal c with
    | some d => digitsToNat rest (acc * 10 + d)
    | none => none

/-- Drop leading and trailing spaces (Python `int` ignores them). -/
def trimSpaces (cs : List Char) : List Char :=
  ((cs.dropWhile (fun c => c == ' ')).reverse.dropWhile (fun c => c == ' ')).reverse

/-- Python `int(s)` for strings: an optionally signed decimal numeral. -/
def parseIntStr (s : String) : Option Int :=
  match trimSpaces s.data with
  | '-' :: rest =>
    if rest.isEmpty then none else (digitsToNat rest 0).map (fun n => -(n : Int))
  | '+' :: rest =>
    if rest.isEmpty then none else (digitsToNat rest 0).map (fun n => (n : Int))
  | cs => if cs.isEmpty then none else (digitsToNat cs 0).map (fun n => (n : Int))

/-- Python `int(x)` on a JSON value: integers pass through, booleans
become 0/1, strings are parsed as decimal numerals; anything else
raises (`none`). -/
def pythonInt : JValue → Option Int
  | JValue.num n => some n
  | JValue.bool b => some (if b then 1 else 0)
  | JValue.str s => parseIntStr s
  | _ => none

/-- Zero padding to the given width (strftime field padding). -/
def padZ (w : Nat) (s : String) : String :=
  String.mk (List.replicate (w - s.length) '0') ++ s

/-- Gregorian date of a day count relative to 1970-01-01
(Hinnant's civil-from-days algorithm, as used by CPython's
`datetime.utcfromtimestamp`). -/
def civilFromDays (z0 : Int) : Int × Nat × Nat :=
  let z := z0 + 719468
  let era := z.fdiv 146097
  let doe := (z - era * 146097).toNat
  let yoe := (doe - doe / 1460 + doe / 36524 - doe / 146096) / 365
  let y := (yoe : Int) + era * 400
  let doy := doe - (365 * yoe + yoe / 4 - yoe / 100)
  let mp := (5 * doy + 2) / 153
  let d := doy - (153 * mp + 2) / 5 + 1
  let m := if mp < 10 then mp + 3 else mp - 9
  (if m ≤ 2 then y + 1 else y, m, d)

/-- `datetime.utcfromtimestamp(n).strftime("%Y-%m-%dT%H:%M:%S.000Z")`. -/
def formatTimestamp (n : Int) : String :=
  let days := n.fdiv 86400
  let sod := (n - days * 86400).toNat
  let c := civilFromDays days
  padZ 4 (toString c.1) ++ "-" ++ padZ 2 (toString c.2.1) ++ "-" ++ padZ 2 (toString c.2.2) ++
    "T" ++ padZ 2 (toString (sod / 3600)) ++ ":" ++ padZ 2 (toString (sod % 3600 / 60)) ++
    ":" ++ padZ 2 (toString (sod % 60)) ++ ".000Z"

/-- Smallest epoch value `datetime.utcfromtimestamp` accepts (year 1). -/
def minDatetimeTS : Int := -62135596800

/-- Largest epoch value `datetime.utcfromtimestamp` accepts (year 9999). -/
def maxDatetimeTS : Int := 253402300799

/-- The per-record timestamp-conversion step of `submit`:
`if "unixTime" in doc: doc["@timestamp"] = datetime.utcfromtimestamp(int(doc["unixTime"])).strftime("%Y-%m-%dT%H:%M:%S.000Z")`.
`none` models the statement raising: a present but non-numeric
`unixTime`, or an epoch outside datetime's representable range. -/
def convertUnixTime (d : Doc) : Option Doc :=
  match objLookup d "unixTime" with
  | none => some d
  | some v =>
    match pythonInt v with
    | none => none
    | some n =>
      if minDatetimeTS ≤ n ∧ n ≤ maxDatetimeTS then
        some (objSet d "@timestamp" (JValue.str (formatTimestamp n)))
      else none

/-! ## The `/submit` endpoint (src/src/flock_server/api.py) -/

/-- One `es.index(...)` call issued by the write loop. -/
structure ESWrite where
  index : String
  doc_type : String
  body : Doc

/-- The full per-record mutation of the write loop: timestamp
conversion, then `doc["username"] = ...; doc["user_name"] = ...`. -/
def mutateDoc (u un : String) (d : Doc) : Option Doc :=
  (convertUnixTime d).map
    (fun d' => objSet (objSet d' "username" (JValue.str u)) "user_name" (JValue.str un))

/-- The write loop of `submit`: mutate each record in place and append
it to the current day's partition, in order; it stops at the first
record whose conversion raises (earlier writes persist).  Returns the
mutated records, the issued writes, and whether the loop completed. -/
def writeLoop (today u un : String) : List Doc → List Doc × List ESWrite × Bool
  | [] => ([], [], true)
  | d :: rest =>
    match mutateDoc u un d with
    | none => ([], [], false)
    | some d' =>
      let r := writeLoop today u un rest
      (d' :: r.1, ⟨"flock-" ++ today, "osquery", d'⟩ :: r.2.1, r.2.2)

/-- First element-validation error of the `submit` loop, carrying the
running element index. -/
def firstValidationError (u : String) (i : Nat) : List JValue → Option String
  | [] => none
  | d :: rest =>
    match d with
    | JValue.obj fields =>
      match objLookup fields "hostIdentifier" with
      | some (JValue.str h) =>
        if h == u then firstValidationError u (i + 1) rest
        else some ("Item " ++ toString i ++ " does not contain the correct hostIdentifier")
      | some _ => some ("Item " ++ toString i ++ " does not contain the correct hostIdentifier")
      | none => some ("Item " ++ toString i ++ " does not contain the correct hostIdentifier")
    | _ => some ("Item " ++ toString i ++ " is not an object")

/-- Extract the field list of an object element (only used after
validation has established that every element is an object). -/
def toObjFields : JValue → Doc
  | JValue.obj fields => fields
  | _ => []

/-- `doc["action"] == "added"` (guarded by `"action" in doc`). -/
def isAdded (d : Doc) : Bool :=
  match objLookup d "action" with
  | some (JValue.str s) => s == "added"
  | _ => false

/-- `doc["action"] == "removed"` (guarded by `"action" in doc`). -/
def isRemoved (d : Doc) : Bool :=
  match objLookup d "action" with
  | some (JValue.str s) => s == "removed"
  | _ => false

/-- The added/removed/other counting loop of the burst branch. -/
def actionCounts (ds : List Doc) : Nat × Nat × Nat :=
  ds.foldl
    (fun c d =>
      if isAdded d then (c.1 + 1, c.2.1, c.2.2)
      else if isRemoved d then (c.1, c.2.1 + 1, c.2.2)
      else (c.1, c.2.1, c.2.2 + 1))
    (0, 0, 0)

/-- The notification kind a record contributes to:
`"name" in doc and doc["name"] in notification_names`. -/
def docKind (names : List String) (d : Doc) : Option String :=
  match objLookup d "name" with
  | some (JValue.str s) => if names.contains s then some s else none
  | _ => none

/-- Append a record to its kind's bucket of the insertion-ordered
grouping dict `notification_docs` (a `defaultdict(list)`). -/
def insertGroup (gs : List (String × List Doc)) (k : String) (d : Doc) :
    List (String × List Doc) :=
  match gs with
  | [] => [(k, [d])]
  | (k', ds) :: rest =>
    if k' == k then (k', ds ++ [d]) :: rest else (k', ds) :: insertGroup rest k d

/-- One step of the grouping loop of `submit`. -/
def addDoc (names : List String) (gs : List (String × List Doc)) (d : Doc) :
    List (String × List Doc) :=
  match docKind names d with
  | some k => insertGroup gs k d
  | none => gs

/-- `notification_docs` after the grouping loop of `submit`. -/
def groupByKind (names : List String) (docs : List Doc) : List (String × List Doc) :=
  docs.foldl (addDoc names) []

/-- The summary payload sent by the burst branch of `submit`. -/
def summaryPayload (u un : String) (ds : List Doc) : JValue :=
  JValue.obj
    [("type", JValue.str "summary"),
     ("username", JValue.str u),
     ("name", JValue.str un),
     ("added_count", JValue.num ((actionCounts ds).1 : Int)),
     ("removed_count", JValue.num ((actionCounts ds).2.1 : Int)),
     ("other_count", JValue.num ((actionCounts ds).2.2 : Int))]

/-- The notification(s) sent for one bucket of `notification_docs`:
a singleton event for one record, a summary for a burst. -/
def eventsFor (u un : String) (g : String × List Doc) : List (String × JValue) :=
  match g.2 with
  | [] => []
  | [d] => [(g.1, JValue.obj d)]
  | ds => [(g.1, summaryPayload u un ds)]

/-- The notification step of `submit`: group the (already mutated)
records by osquery notification kind, then emit one singleton or
summary event per kind in first-seen order. -/
def classify (u un : String) (names : List String) (docs : List Doc) :
    List (String × JValue) :=
  ((groupByKind names docs).map (eventsFor u un)).flatten

/-- HTTP-level result of a submission endpoint: a 400 API error, the
success envelope with its `processed_count`, or an unhandled exception
(HTTP 500). -/
inductive SubmitResult where
  | errorResp : String → SubmitResult
  | success : Nat → SubmitResult
  | exn : SubmitResult
deriving DecidableEq

/-- Outcome of `/submit`: HTTP-level result, the Elasticsearch writes
issued, and the keybase notification events emitted. -/
structure SubmitOutcome where
  result : SubmitResult
  writes : List ESWrite
  notifs : List (String × JValue)

/-- `submit` of api.py over an already-parsed JSON body.  Parameters:
`u` — the authenticated username; `un` — that user's display name (the
Elasticsearch user lookup); `names` — the osquery-category notification
kinds of the keybase catalog (`notification_names`); `today` — the
current processing date, `datetime.now().strftime("%Y-%m-%d")`. -/
def submit (u un : String) (names : List String) (today : String) (body : JValue) :
    SubmitOutcome :=
  if !truthy body then ⟨SubmitResult.errorResp "Invalid JSON object", [], []⟩
  else
    match body with
    | JValue.arr docsJ =>
      match firstValidationError u 0 docsJ with
      | some msg => ⟨SubmitResult.errorResp msg, [], []⟩
      | none =>
        let r := writeLoop today u un (docsJ.map toObjFields)
        if r.2.2 then
          ⟨SubmitResult.success docsJ.length, r.2.1, classify u un names r.1⟩
        else
          ⟨SubmitResult.exn, r.2.1, []⟩
    | _ => ⟨SubmitResult.errorResp "Data is not an array", [], []⟩

/-! ## The `/submit_flock_logs` endpoint (src/src/flock_server/api.py) -/

/-- `doc[k] in [s1, s2, ...]` for a list of string constants. -/
def jvalIn (v : JValue) (ss : List String) : Bool :=
  match v with
  | JValue.str s => ss.contains s
  | _ => false

/-- First element-validation error of the `submit_flock_logs` loop. -/
def firstFlockLogError (i : Nat) : List JValue → Option String
  | [] => none
  | d :: rest =>
    match d with
    | JValue.obj fields =>
      match objLookup fields "type" with
      | none => some ("Item " ++ toString i ++ " does not contain a type field")
      | some tv =>
        if (objLookup fields "timestamp").isNone then
          some ("Item " ++ toString i ++ " does not contain a timestamp field")
        else if jvalIn tv ["enable_twig", "disable_twig"] &&
            (objLookup fields "twig_id").isNone then
          some ("Item " ++ toString i ++ " is about a twig, but does not contain a twig_id field")
        else firstFlockLogError (i + 1) rest
    | _ => some ("Item " ++ toString i ++ " is not an object")

/-- The notification loop of `submit_flock_logs`: one notification per
state-change record, in order.  Reading `doc["twig_ids"]` raises a
`KeyError` when the field is missing: the loop stops with the `false`
flag (notifications already added persist). -/
def flockLogNotifs (u un : String) : List Doc → List (String × JValue) × Bool
  | [] => ([], true)
  | d :: rest =>
    match objLookup d "type" with
    | none => ([], false)
    | some tv =>
      if jvalIn tv ["server_enabled", "server_disabled", "twigs_enabled", "twigs_disabled"] then
        match tv with
        | JValue.str t =>
          if jvalIn tv ["twigs_enabled", "twigs_disabled"] then
            match objLookup d "twig_ids" with
            | none => ([], false)
            | some tw =>
              let r := flockLogNotifs u un rest
              ((t, JValue.obj
                  [("username", JValue.str u), ("name", JValue.str un),
                   ("twig_ids", tw)]) :: r.1, r.2)
          else
            let r := flockLogNotifs u un rest
            ((t, JValue.obj
                [("username", JValue.str u), ("name", JValue.str un)]) :: r.1, r.2)
        | _ => flockLogNotifs u un rest
      else flockLogNotifs u un rest

/-- `submit_flock_logs` of api.py over an already-parsed JSON body.
`u` is the authenticated username, `un` the display name returned by
`get_name()`. -/
def submit_flock_logs (u un : String) (body : JValue) :
    SubmitResult × List (String × JValue) :=
  match body with
  | JValue.arr docsJ =>
    match firstFlockLogError 0 docsJ with
    | some msg => (SubmitResult.errorResp msg, [])
    | none =>
      let r := flockLogNotifs u un (docsJ.map toObjFields)
      if r.2 then (SubmitResult.success docsJ.length, r.1)
      else (SubmitResult.exn, r.1)
  | _ => (SubmitResult.errorResp "Data is not an array", [])

/-! ## Lemmas about dict operations and per-record mutation -/

theorem objLookup_objSet_self (d : Doc) (k : String) (v : JValue) :
    objLookup (objSet d k v) k = some v := by
  induction d with
  | nil => simp [objSet, objLookup]
  | cons p rest ih =>
    obtain ⟨k', v'⟩ := p
    cases h : k' == k with
    | true => simp [objSet, objLookup, h]
    | false => simp [objSet, objLookup, h, ih]

theorem objLookup_objSet_ne (d : Doc) (k k2 : String) (v : JValue)
    (h : (k2 == k) = false) :
    objLookup (objSet d k v) k2 = objLookup d k2 := by
  have hks : (k == k2) = false := by
    cases hx : k == k2
    · rfl
    · rw [beq_iff_eq] at hx
      rw [hx] at h
      simp at h
  induction d with
  | nil => simp [objSet, objLookup, hks]
  | cons p rest ih =>
    obtain ⟨k', v'⟩ := p
    cases hk : k' == k with
    | true =>
      have hk2 : (k' == k2) = false := by
        rw [beq_iff_eq] at hk
        rw [hk]
        exact hks
      simp [objSet, objLookup, hk, hks, hk2]
    | false => simp [objSet, objLookup, hk, ih]

/-- A successful timestamp conversion with `unixTime` present yields a
record carrying `@timestamp`. -/
theorem convertUnixTime_timestamp (d d0 : Doc)
    (hc : convertUnixTime d = some d0)
    (hu : (objLookup d "unixTime").isSome) :
    (objLookup d0 "@timestamp").isSome := by
  unfold convertUnixTime at hc
  cases hl : objLookup d "unixTime" with
  | none => rw [hl] at hu; simp at hu
  | some v =>
    rw [hl] at hc
    have hc2 : (match pythonInt v with
      | none => none
      | some n =>
        if minDatetimeTS ≤ n ∧ n ≤ maxDatetimeTS then
          some (objSet d "@timestamp" (JValue.str (formatTimestamp n)))
        else none) = some d0 := hc
    cases hp : pythonInt v with
    | none =>
      rw [hp] at hc2
      exact Option.noConfusion hc2
    | some n =>
      rw [hp] at hc2
      have hc3 : (if minDatetimeTS ≤ n ∧ n ≤ maxDatetimeTS then
          some (objSet d "@timestamp" (JValue.str (formatTimestamp n)))
        else none) = some d0 := hc2
      by_cases hr : minDatetimeTS ≤ n ∧ n ≤ maxDatetimeTS
      · rw [if_pos hr] at hc3
        have hd0 : d0 = objSet d "@timestamp" (JValue.str (formatTimestamp n)) :=
          (Option.some_inj.mp hc3).symm
        rw [hd0, objLookup_objSet_self]
        rfl
      · rw [if_neg hr] at hc3
        exact Option.noConfusion hc3

/-- A mutated record carries the stamped submitter fields, and carries
`@timestamp` whenever the original record carried `unixTime`. -/
theorem mutateDoc_fields (u un : String) (d d' : Doc)
    (h : mutateDoc u un d = some d') :
    objLookup d' "username" = some (JValue.str u) ∧
    objLookup d' "user_name" = some (JValue.str un) ∧
    ((objLookup d "unixTime").isSome → (objLookup d' "@timestamp").isSome) := by
  unfold mutateDoc at h
  cases hc : convertUnixTime d with
  | none => rw [hc] at h; exact Option.noConfusion h
  | some d0 =>
    rw [hc] at h
    have h2 : some (objSet (objSet d0 "username" (JValue.str u)) "user_name" (JValue.str un)) =
        some d' := h
    have hd' : d' = objSet (objSet d0 "username" (JValue.str u)) "user_name" (JValue.str un) :=
      (Option.some_inj.mp h2).symm
    subst hd'
    refine ⟨?_, ?_, ?_⟩
    · rw [objLookup_objSet_ne _ _ _ _ (by decide), objLookup_objSet_self]
    · rw [objLookup_objSet_self]
    · intro hu
      rw [objLookup_objSet_ne _ _ _ _ (by decide), objLookup_objSet_ne _ _ _ _ (by decide)]
      exact convertUnixTime_timestamp d d0 hc hu

/-- All records mutated successfully, in order (`none` when some
record's conversion raises). -/
def mutateAll (u un : String) : List Doc → Option (List Doc)
  | [] => some []
  | d :: rest =>
    (mutateDoc u un d).bind
      (fun d' => (mutateAll u un rest).map (fun rest' => d' :: rest'))

theorem mutateAll_length (u un : String) (ds ds' : List Doc)
    (h : mutateAll u un ds = some ds') : ds'.length = ds.length := by
  induction ds generalizing ds' with
  | nil =>
    have h2 : some ([] : List Doc) = some ds' := h
    rw [(Option.some_inj.mp h2).symm]
  | cons d rest ih =>
    unfold mutateAll at h
    cases hd : mutateDoc u un d with
    | none => rw [hd] at h; exact Option.noConfusion h
    | some d1 =>
      rw [hd] at h
      cases hr : mutateAll u un rest with
      | none => rw [hr] at h; exact Option.noConfusion h
      | some rest' =>
        rw [hr] at h
        have hcons : some (d1 :: rest') = some ds' := h
        rw [(Option.some_inj.mp hcons).symm]
        simp [ih rest' hr]

theorem mutateAll_mem (u un : String) (ds ds' : List Doc)
    (h : mutateAll u un ds = some ds') :
    ∀ d' ∈ ds', ∃ d ∈ ds, mutateDoc u un d = some d' := by
  induction ds generalizing ds' with
  | nil =>
    have h2 : some ([] : List Doc) = some ds' := h
    rw [(Option.some_inj.mp h2).symm]
    intro d' hd'
    cases hd'
  | cons d rest ih =>
    unfold mutateAll at h
    cases hd : mutateDoc u un d with
    | none => rw [hd] at h; exact Option.noConfusion h
    | some d1 =>
      rw [hd] at h
      cases hr : mutateAll u un rest with
      | none => rw [hr] at h; exact Option.noConfusion h
      | some rest' =>
        rw [hr] at h
        have hcons : some (d1 :: rest') = some ds' := h
        rw [(Option.some_inj.mp hcons).symm]
        intro x hx
        rcases List.mem_cons.mp hx with h1 | h2
        · exact ⟨d, List.mem_cons_self _ _, h1 ▸ hd⟩
        · rcases ih rest' hr x h2 with ⟨d0, hd0, hm⟩
          exact ⟨d0, List.mem_cons_of_mem _ hd0, hm⟩

/-- When every record converts, the write loop completes, producing one
`flock-<today>` / `"osquery"` write per mutated record, in order. -/
theorem writeLoop_eq_of_mutateAll (today u un : String) (ds ds' : List Doc)
    (h : mutateAll u un ds = some ds') :
    writeLoop today u un ds =
      (ds', ds'.map (fun x => ⟨"flock-" ++ today, "osquery", x⟩), true) := by
  induction ds generalizing ds' with
  | nil =>
    have h2 : some ([] : List Doc) = some ds' := h
    rw [(Option.some_inj.mp h2).symm]
    rfl
  | cons d rest ih =>
    unfold mutateAll at h
    cases hd : mutateDoc u un d with
    | none => rw [hd] at h; exact Option.noConfusion h
    | some d1 =>
      rw [hd] at h
      cases hr : mutateAll u un rest with
      | none => rw [hr] at h; exact Option.noConfusion h
      | some rest' =>
        rw [hr] at h
        have hcons : some (d1 :: rest') = some ds' := h
        rw [(Option.some_inj.mp hcons).symm]
        unfold writeLoop
        rw [hd, ih rest' hr]
        rfl

/-! ## Lemmas about the grouping loop and classification -/

/-- A record whose `name` field equals the kind `K`. -/
def hasName (K : String) (d : Doc) : Bool :=
  match objLookup d "name" with
  | some (JValue.str s) => s == K
  | _ => false

/-- For a kind `K` of the osquery catalog, contributing to bucket `K`
is the same as carrying `name = K`. -/
theorem docKind_eq_hasName (names : List String) (K : String) (hK : K ∈ names) (d : Doc) :
    (docKind names d == some K) = hasName K d := by
  unfold docKind hasName
  cases objLookup d "name" with
  | none => rfl
  | some v =>
    cases v with
    | str s =>
      show ((if names.contains s = true then (some s : Option String) else none) == some K) =
        (s == K)
      by_cases hc : names.contains s = true
      · rw [if_pos hc]
        rfl
      · rw [if_neg hc]
        have hs : s ≠ K := by
          intro he
          exact hc (by rw [he]; exact List.elem_iff.mpr hK)
        have hsK : (s == K) = false := beq_eq_false_iff_ne.mpr hs
        rw [hsK]
        rfl
    | null => rfl
    | bool b => rfl
    | num n => rfl
    | arr xs => rfl
    | obj fs => rfl

theorem insertGroup_filter_ne (gs : List (String × List Doc)) (k K : String) (d : Doc)
    (h : (k == K) = false) :
    (insertGroup gs k d).filter (fun p => p.1 == K) =
      gs.filter (fun p => p.1 == K) := by
  induction gs with
  | nil => simp [insertGroup, List.filter_cons, h]
  | cons g rest ih =>
    obtain ⟨k', ds⟩ := g
    cases hk : k' == k with
    | true =>
      have hk'K : (k' == K) = false := by
        rw [beq_iff_eq] at hk
        rw [hk]
        exact h
      simp [insertGroup, hk, List.filter_cons, hk'K]
    | false =>
      cases hk'K : k' == K with
      | true => simp [insertGroup, hk, List.filter_cons, hk'K, ih]
      | false => simp [insertGroup, hk, List.filter_cons, hk'K, ih]

theorem insertGroup_filter_nil (gs : List (String × List Doc)) (k : String) (d : Doc)
    (h : gs.filter (fun p => p.1 == k) = []) :
    (insertGroup gs k d).filter (fun p => p.1 == k) = [(k, [d])] := by
  induction gs with
  | nil => simp [insertGroup, List.filter_cons]
  | cons g rest ih =>
    obtain ⟨k', ds⟩ := g
    cases hk : k' == k with
    | true =>
      rw [List.filter_cons] at h
      simp only [hk] at h
      simp at h
    | false =>
      rw [List.filter_cons] at h
      simp only [hk] at h
      simp only [Bool.false_eq_true, if_false, ite_false] at h
      simp [insertGroup, hk, List.filter_cons, ih h]

theorem insertGroup_filter_cons (gs : List (String × List Doc)) (k : String) (d : Doc)
    (ds0 : List Doc)
    (h : gs.filter (fun p => p.1 == k) = [(k, ds0)]) :
    (insertGroup gs k d).filter (fun p => p.1 == k) = [(k, ds0 ++ [d])] := by
  induction gs with
  | nil => simp at h
  | cons g rest ih =>
    obtain ⟨k', ds⟩ := g
    cases hk : k' == k with
    | true =>
      rw [List.filter_cons] at h
      simp only [hk, if_true, ite_true] at h
      have hhead : (k', ds) = (k, ds0) := List.head_eq_of_cons_eq h
      have htail : rest.filter (fun p => p.1 == k) = [] := List.tail_eq_of_cons_eq h
      obtain ⟨hk1, hds⟩ := Prod.mk.injEq .. ▸ hhead
      simp [insertGroup, hk, List.filter_cons, htail, hk1, hds]
    | false =>
      rw [List.filter_cons] at h
      simp only [hk, Bool.false_eq_true, if_false, ite_false] at h
      simp [insertGroup, hk, List.filter_cons, ih h]

/-- Invariant of the grouping loop: the bucket of kind `K` collects, in
order, exactly the records contributing to `K`. -/
theorem foldl_addDoc_filter (names : List String) (K : String) :
    ∀ (docs : List Doc) (gs : List (String × List Doc)) (flt0 : List Doc),
      gs.filter (fun p => p.1 == K) = (if flt0.isEmpty then [] else [(K, flt0)]) →
      (docs.foldl (addDoc names) gs).filter (fun p => p.1 == K) =
        (if (flt0 ++ docs.filter (fun d => docKind names d == some K)).isEmpty then []
         else [(K, flt0 ++ docs.filter (fun d => docKind names d == some K))]) := by
  intro docs
  induction docs with
  | nil =>
    intro gs flt0 h
    simp only [List.foldl_nil, List.filter_nil, List.append_nil]
    exact h
  | cons d rest ih =>
    intro gs flt0 h
    rw [List.foldl_cons]
    cases hdk : docKind names d with
    | none =>
      have hstep : addDoc names gs d = gs := by unfold addDoc; rw [hdk]
      have hpred : (docKind names d == some K) = false := by rw [hdk]; rfl
      rw [hstep, List.filter_cons, hpred]
      simp only [Bool.false_eq_true, if_false, ite_false]
      exact ih gs flt0 h
    | some k =>
      have hstep : addDoc names gs d = insertGroup gs k d := by unfold addDoc; rw [hdk]
      rw [hstep]
      cases hkK : k == K with
      | false =>
        have hpred : (docKind names d == some K) = false := by
          rw [hdk]
          show (some k == some K) = false
          exact hkK
        rw [List.filter_cons, hpred]
        simp only [Bool.false_eq_true, if_false, ite_false]
        exact ih (insertGroup gs k d) flt0
          (by rw [insertGroup_filter_ne gs k K d hkK]; exact h)
      | true =>
        have hkeq : k = K := beq_iff_eq.mp hkK
        subst hkeq
        have hpred : (docKind names d == some k) = true := by rw [hdk]; simp
        rw [List.filter_cons, hpred]
        simp only [if_true, ite_true]
        cases hfe : flt0.isEmpty with
        | true =>
          have hflt : flt0 = [] := List.isEmpty_iff.mp hfe
          rw [hfe] at h
          simp only [if_true, ite_true] at h
          have hgs' := insertGroup_filter_nil gs k d h
          have hih := ih (insertGroup gs k d) [d] (by rw [hgs']; rfl)
          rw [hih, hflt]
          simp
        | false =>
          rw [hfe] at h
          simp only [Bool.false_eq_true, if_false, ite_false] at h
          have hgs' := insertGroup_filter_cons gs k d flt0 h
          have hih := ih (insertGroup gs k d) (flt0 ++ [d])
            (by rw [hgs']; simp)
          rw [hih]
          simp [List.append_assoc]

/-- The `K` bucket of `notification_docs` is the in-order list of records
contributing to `K`, present exactly when that list is nonempty. -/
theorem groupByKind_filter (names : List String) (K : String) (docs : List Doc) :
    (groupByKind names docs).filter (fun p => p.1 == K) =
      (if (docs.filter (fun d => docKind names d == some K)).isEmpty then []
       else [(K, docs.filter (fun d => docKind names d == some K))]) := by
  have h := foldl_addDoc_filter names K docs [] [] rfl
  simpa using h

/-- Events emitted for one bucket all carry that bucket's kind. -/
theorem eventsFor_filter (u un K : String) (g : String × List Doc) :
    (eventsFor u un g).filter (fun e => e.1 == K) =
      (if g.1 == K then eventsFor u un g else []) := by
  obtain ⟨k, ds⟩ := g
  rcases ds with _ | ⟨d1, _ | ⟨d2, t⟩⟩
  · simp [eventsFor]
  · cases hk : k == K with
    | true => simp [eventsFor, List.filter_cons, hk]
    | false => simp [eventsFor, List.filter_cons, hk]
  · cases hk : k == K with
    | true => simp [eventsFor, List.filter_cons, hk]
    | false => simp [eventsFor, List.filter_cons, hk]

theorem flatten_map_filter (u un K : String) (gs : List (String × List Doc)) :
    ((gs.map (eventsFor u un)).flatten).filter (fun e => e.1 == K) =
      ((gs.filter (fun p => p.1 == K)).map (eventsFor u un)).flatten := by
  induction gs with
  | nil => rfl
  | cons g rest ih =>
    rw [List.map_cons, List.flatten_cons, List.filter_append, eventsFor_filter,
      List.filter_cons]
    cases hk : g.1 == K with
    | true =>
      simp only [if_true, ite_true, List.map_cons, List.flatten_cons, ih]
    | false =>
      simp only [Bool.false_eq_true, if_false, ite_false, List.nil_append, ih]

/-- The events classification emits for kind `K` are those computed from
the `K` bucket of the grouping. -/
theorem classify_filter (u un : String) (names : List String) (K : String)
    (docs : List Doc) :
    (classify u un names docs).filter (fun e => e.1 == K) =
      (((groupByKind names docs).filter (fun p => p.1 == K)).map (eventsFor u un)).flatten :=
  flatten_map_filter u un K (groupByKind names docs)

/-- A record counted as "added" is not counted as "removed". -/
theorem isAdded_not_isRemoved (d : Doc) (h : isAdded d = true) : isRemoved d = false := by
  unfold isAdded at h
  unfold isRemoved
  cases hl : objLookup d "action" with
  | none => rfl
  | some v =>
    rw [hl] at h
    cases v with
    | str s =>
      have hs : s = "added" := beq_iff_eq.mp h
      subst hs
      rfl
    | null => exact Bool.noConfusion h
    | bool b => exact Bool.noConfusion h
    | num n => exact Bool.noConfusion h
    | arr xs => exact Bool.noConfusion h
    | obj fs => exact Bool.noConfusion h

/-- The counting loop of the burst branch computes the three predicate
counts over the bucket. -/
theorem actionCounts_foldl (ds : List Doc) :
    ∀ a b c : Nat,
      ds.foldl
        (fun c d =>
          if isAdded d then (c.1 + 1, c.2.1, c.2.2)
          else if isRemoved d then (c.1, c.2.1 + 1, c.2.2)
          else (c.1, c.2.1, c.2.2 + 1)) (a, b, c) =
      (a + ds.countP isAdded, b + ds.countP isRemoved,
       c + ds.countP (fun d => !isAdded d && !isRemoved d)) := by
  induction ds with
  | nil => intro a b c; simp
  | cons d rest ih =>
    intro a b c
    rw [List.foldl_cons]
    cases ha : isAdded d with
    | true =>
      have hr : isRemoved d = false := isAdded_not_isRemoved d ha
      simp only [ha, if_true, ite_true]
      rw [ih]
      simp only [List.countP_cons, ha, hr, Bool.not_true, Bool.not_false,
        Bool.false_and, Bool.and_false]
      refine Prod.ext ?_ (Prod.ext ?_ ?_) <;> (simp; try omega)
    | false =>
      cases hr : isRemoved d with
      | true =>
        simp only [ha, hr, Bool.false_eq_true, if_false, ite_false, if_true, ite_true]
        rw [ih]
        simp only [List.countP_cons, ha, hr, Bool.not_true, Bool.not_false,
          Bool.and_false, Bool.false_and]
        refine Prod.ext ?_ (Prod.ext ?_ ?_) <;> (simp; try omega)
      | false =>
        simp only [ha, hr, Bool.false_eq_true, if_false, ite_false]
        rw [ih]
        simp only [List.countP_cons, ha, hr, Bool.not_true, Bool.not_false,
          Bool.and_self, Bool.true_and]
        refine Prod.ext ?_ (Prod.ext ?_ ?_) <;> (simp; try omega)

theorem actionCounts_eq (ds : List Doc) :
    actionCounts ds =
      (ds.countP isAdded, ds.countP isRemoved,
       ds.countP (fun d => !isAdded d && !isRemoved d)) := by
  unfold actionCounts
  have h := actionCounts_foldl ds 0 0 0
  simpa using h

/-- The summary payload spelt out with the three counts. -/
theorem summaryPayload_eq (u un : String) (ds : List Doc) :
    summaryPayload u un ds =
      JValue.obj
        [("type", JValue.str "summary"),
         ("username", JValue.str u),
         ("name", JValue.str un),
         ("added_count", JValue.num ((ds.countP isAdded : Nat) : Int)),
         ("removed_count", JValue.num ((ds.countP isRemoved : Nat) : Int)),
         ("other_count",
          JValue.num ((ds.countP (fun d => !isAdded d && !isRemoved d) : Nat) : Int))] := by
  unfold summaryPayload
  rw [actionCounts_eq]

/-- C1: a burst — more than one record of an osquery notification kind
`K` in the batch — yields exactly one event for `K`: a summary carrying
the added/removed/other counts of the matching records (and hence no
singleton event for `K`), whatever the records' action values. -/
theorem classify_burst (u un : String) (names : List String) (docs : List Doc)
    (K : String)
    (hK : K ∈ names)
    (hb : 1 < (docs.filter (hasName K)).length) :
    (classify u un names docs).filter (fun e => e.1 == K) =
      [(K, JValue.obj
        [("type", JValue.str "summary"),
         ("username", JValue.str u),
         ("name", JValue.str un),
         ("added_count",
          JValue.num (((docs.filter (hasName K)).countP isAdded : Nat) : Int)),
         ("removed_count",
          JValue.num (((docs.filter (hasName K)).countP isRemoved : Nat) : Int)),
         ("other_count",
          JValue.num (((docs.filter (hasName K)).countP
            (fun d => !isAdded d && !isRemoved d) : Nat) : Int))])] := by
  have hfe : docs.filter (fun d => docKind names d == some K) = docs.filter (hasName K) :=
    List.filter_congr (fun d _ => docKind_eq_hasName names K hK d)
  have hshape : ∃ d1 d2 t, docs.filter (hasName K) = d1 :: d2 :: t := by
    rcases hfl : docs.filter (hasName K) with _ | ⟨d1, _ | ⟨d2, t⟩⟩
    · rw [hfl] at hb; simp at hb
    · rw [hfl] at hb; simp at hb
    · exact ⟨d1, d2, t, rfl⟩
  obtain ⟨d1, d2, t, hfl⟩ := hshape
  rw [classify_filter, groupByKind_filter, hfe, hfl]
  simp only [List.isEmpty_cons, Bool.false_eq_true, if_false, ite_false,
    List.map_cons, List.map_nil, List.flatten]
  show eventsFor u un (K, d1 :: d2 :: t) ++ [] =
    [(K, JValue.obj
      [("type", JValue.str "summary"),
       ("username", JValue.str u),
       ("name", JValue.str un),
       ("added_count", JValue.num (((d1 :: d2 :: t).countP isAdded : Nat) : Int)),
       ("removed_count", JValue.num (((d1 :: d2 :: t).countP isRemoved : Nat) : Int)),
       ("other_count", JValue.num (((d1 :: d2 :: t).countP
         (fun d => !isAdded d && !isRemoved d) : Nat) : Int))])]
  rw [List.append_nil]
  show [(K, summaryPayload u un (d1 :: d2 :: t))] = _
  rw [summaryPayload_eq]

/-- Concrete instance of `classify_burst`: the spec's three-record test
batch (`added` / `removed` / `other`). -/
theorem classify_burst_witness :
    (classify "u" "U" ["K"]
      [[("name", JValue.str "K"), ("action", JValue.str "added")],
       [("name", JValue.str "K"), ("action", JValue.str "removed")],
       [("name", JValue.str "K"), ("action", JValue.str "other")]]).filter
        (fun e => e.1 == "K") =
      [("K", JValue.obj
        [("type", JValue.str "summary"),
         ("username", JValue.str "u"),
         ("name", JValue.str "U"),
         ("added_count", JValue.num 1),
         ("removed_count", JValue.num 1),
         ("other_count", JValue.num 1)])] :=
  classify_burst "u" "U" ["K"]
    [[("name", JValue.str "K"), ("action", JValue.str "added")],
     [("name", JValue.str "K"), ("action", JValue.str "removed")],
     [("name", JValue.str "K"), ("action", JValue.str "other")]]
    "K" (by decide) (by decide)

/-- C2: exactly one record of osquery kind `K` in the batch yields
exactly one singleton event for `K`, carrying that record verbatim and
never a summary; zero matching records yield no event for `K`. -/
theorem classify_singleton (u un : String) (names : List String) (docs : List Doc)
    (K : String)
    (hK : K ∈ names) :
    (∀ d, docs.filter (hasName K) = [d] →
       (classify u un names docs).filter (fun e => e.1 == K) = [(K, JValue.obj d)]) ∧
    (docs.filter (hasName K) = [] →
       (classify u un names docs).filter (fun e => e.1 == K) = []) := by
  have hfe : docs.filter (fun d => docKind names d == some K) = docs.filter (hasName K) :=
    List.filter_congr (fun d _ => docKind_eq_hasName names K hK d)
  constructor
  · intro d hfl
    rw [classify_filter, groupByKind_filter, hfe, hfl]
    rfl
  · intro hfl
    rw [classify_filter, groupByKind_filter, hfe, hfl]
    rfl

/-- Concrete instance of `classify_singleton`. -/
theorem classify_singleton_witness :
    (classify "u" "U" ["K", "L"]
      [[("name", JValue.str "K")], [("name", JValue.str "M")]]).filter
        (fun e => e.1 == "K") = [("K", JValue.obj [("name", JValue.str "K")])] ∧
    (classify "u" "U" ["K", "L"]
      [[("name", JValue.str "K")], [("name", JValue.str "M")]]).filter
        (fun e => e.1 == "L") = [] :=
  ⟨(classify_singleton "u" "U" ["K", "L"]
      [[("name", JValue.str "K")], [("name", JValue.str "M")]] "K" (by decide)).1
      [("name", JValue.str "K")] (by rfl),
   (classify_singleton "u" "U" ["K", "L"]
      [[("name", JValue.str "K")], [("name", JValue.str "M")]] "L" (by decide)).2
      (by rfl)⟩

/-! ## Validation of `/submit` -/

/-- An element that passes the `submit` validation loop: an object whose
`hostIdentifier` equals the authenticated username. -/
def okElem (u : String) (d : JValue) : Bool :=
  match d with
  | JValue.obj fields =>
    match objLookup fields "hostIdentifier" with
    | some (JValue.str h) => h == u
    | _ => false
  | _ => false

/-- The validation error message reported for the offending element at
index `i`. -/
def badMsg (i : Nat) (d : JValue) : String :=
  match d with
  | JValue.obj _ => "Item " ++ toString i ++ " does not contain the correct hostIdentifier"
  | _ => "Item " ++ toString i ++ " is not an object"

/-- The validation loop reports the first offending element, by index. -/
theorem firstValidationError_at (u : String) :
    ∀ (ds : List JValue) (n i : Nat) (d : JValue),
      ds.get? i = some d → okElem u d = false →
      (∀ j dj, j < i → ds.get? j = some dj → okElem u dj = true) →
      firstValidationError u n ds = some (badMsg (n + i) d) := by
  intro ds
  induction ds with
  | nil =>
    intro n i d hget
    exact absurd hget (by simp)
  | cons e rest ih =>
    intro n i d hget hbad hok
    cases i with
    | zero =>
      have he : e = d := Option.some_inj.mp hget
      subst he
      rw [Nat.add_zero]
      cases e with
      | obj fields =>
        have hbad2 : (match objLookup fields "hostIdentifier" with
          | some (JValue.str h) => h == u
          | _ => false) = false := hbad
        show (match objLookup fields "hostIdentifier" with
          | some (JValue.str h) =>
            if h == u then firstValidationError u (n + 1) rest
            else some ("Item " ++ toString n ++ " does not contain the correct hostIdentifier")
          | some _ => some ("Item " ++ toString n ++ " does not contain the correct hostIdentifier")
          | none => some ("Item " ++ toString n ++ " does not contain the correct hostIdentifier")) =
          some (badMsg n (JValue.obj fields))
        cases hl : objLookup fields "hostIdentifier" with
        | none => rfl
        | some v =>
          rw [hl] at hbad2
          cases v with
          | str h =>
            have hfalse : (h == u) = false := hbad2
            show (if (h == u) = true then firstValidationError u (n + 1) rest
              else some ("Item " ++ toString n ++ " does not contain the correct hostIdentifier")) =
              some (badMsg n (JValue.obj fields))
            rw [hfalse]
            rfl
          | null => rfl
          | bool b => rfl
          | num m => rfl
          | arr xs => rfl
          | obj fs => rfl
      | null => rfl
      | bool b => rfl
      | num m => rfl
      | arr xs => rfl
      | str s => rfl
    | succ j =>
      have hok0 : okElem u e = true := hok 0 e (Nat.succ_pos j) rfl
      cases e with
      | obj fields =>
        have hok2 : (match objLookup fields "hostIdentifier" with
          | some (JValue.str h) => h == u
          | _ => false) = true := hok0
        cases hl : objLookup fields "hostIdentifier" with
        | none => rw [hl] at hok2; exact Bool.noConfusion hok2
        | some v =>
          rw [hl] at hok2
          cases v with
          | str hID =>
            show (match objLookup fields "hostIdentifier" with
              | some (JValue.str h) =>
                if h == u then firstValidationError u (n + 1) rest
                else some ("Item " ++ toString n ++ " does not contain the correct hostIdentifier")
              | some _ => some ("Item " ++ toString n ++ " does not contain the correct hostIdentifier")
              | none => some ("Item " ++ toString n ++ " does not contain the correct hostIdentifier")) =
              some (badMsg (n + (j + 1)) d)
            rw [hl]
            show (if (hID == u) = true then firstValidationError u (n + 1) rest
              else some ("Item " ++ toString n ++ " does not contain the correct hostIdentifier")) =
              some (badMsg (n + (j + 1)) d)
            have hIDu : (hID == u) = true := hok2
            rw [if_pos hIDu]
            have hrec := ih (n + 1) j d hget hbad
              (fun j' dj hj hgj => hok (j' + 1) dj (Nat.succ_lt_succ hj) hgj)
            have hn : n + 1 + j = n + (j + 1) := by omega
            rw [hn] at hrec
            exact hrec
          | null => exact Bool.noConfusion hok2
          | bool b => exact Bool.noConfusion hok2
          | num m => exact Bool.noConfusion hok2
          | arr xs => exact Bool.noConfusion hok2
          | obj fs => exact Bool.noConfusion hok2
      | null => exact Bool.noConfusion hok0
      | bool b => exact Bool.noConfusion hok0
      | num m => exact Bool.noConfusion hok0
      | arr xs => exact Bool.noConfusion hok0
      | str s => exact Bool.noConfusion hok0

/-- C3: a `/submit` body that is not an array, has a non-object element,
or has an element with a missing or wrong `hostIdentifier`, is rejected
with the validation error of the first offending element, and nothing is
written and no notification is emitted. -/
theorem submit_validation_rejects (u un : String) (names : List String) (today : String) :
    (∀ body, truthy body = false →
       submit u un names today body =
         ⟨SubmitResult.errorResp "Invalid JSON object", [], []⟩) ∧
    (∀ body, truthy body = true → (∀ ds, body ≠ JValue.arr ds) →
       submit u un names today body =
         ⟨SubmitResult.errorResp "Data is not an array", [], []⟩) ∧
    (∀ (ds : List JValue) (i : Nat) (d : JValue),
       ds.get? i = some d → okElem u d = false →
       (∀ j dj, j < i → ds.get? j = some dj → okElem u dj = true) →
       submit u un names today (JValue.arr ds) =
         ⟨SubmitResult.errorResp (badMsg i d), [], []⟩) := by
  refine ⟨?_, ?_, ?_⟩
  · intro body hb
    unfold submit
    rw [hb]
    rfl
  · intro body hb hna
    unfold submit
    rw [hb]
    cases body with
    | arr ds => exact absurd rfl (hna ds)
    | null => rfl
    | bool b => rfl
    | num n => rfl
    | str s => rfl
    | obj fs => rfl
  · intro ds i d hget hbad hok
    have hmsg := firstValidationError_at u ds 0 i d hget hbad hok
    rw [Nat.zero_add] at hmsg
    have hdsne : ds ≠ [] := by
      intro hnil
      rw [hnil] at hget
      exact Option.noConfusion hget
    have htr : truthy (JValue.arr ds) = true := by
      cases ds with
      | nil => exact absurd rfl hdsne
      | cons a l => rfl
    unfold submit
    rw [htr]
    show (match firstValidationError u 0 ds with
      | some msg => (⟨SubmitResult.errorResp msg, [], []⟩ : SubmitOutcome)
      | none =>
        let r := writeLoop today u un (List.map toObjFields ds)
        if r.2.2 = true then
          ⟨SubmitResult.success ds.length, r.2.1, classify u un names r.1⟩
        else ⟨SubmitResult.exn, r.2.1, []⟩) =
      ⟨SubmitResult.errorResp (badMsg i d), [], []⟩
    rw [hmsg]

/-- Concrete instance of `submit_validation_rejects`: a second element
with a foreign `hostIdentifier` is reported at index 1 and nothing is
written. -/
theorem submit_validation_rejects_witness :
    submit "u" "U" [] "2024-01-01"
      (JValue.arr [JValue.obj [("hostIdentifier", JValue.str "u")],
                   JValue.obj [("hostIdentifier", JValue.str "evil")]]) =
      ⟨SubmitResult.errorResp "Item 1 does not contain the correct hostIdentifier",
       [], []⟩ := by
  have h := (submit_validation_rejects "u" "U" [] "2024-01-01").2.2
    [JValue.obj [("hostIdentifier", JValue.str "u")],
     JValue.obj [("hostIdentifier", JValue.str "evil")]]
    1 (JValue.obj [("hostIdentifier", JValue.str "evil")]) rfl rfl
    (by
      intro j dj hj hg
      have hj0 : j = 0 := by omega
      subst hj0
      have hd := Option.some_inj.mp hg
      rw [← hd]
      rfl)
  exact h

/-- C9: the two submission endpoints treat the empty batch differently:
`/submit` rejects `[]` as an invalid JSON object (nothing written, no
notification), while `/submit_flock_logs` accepts it with
`processed_count = 0`. -/
theorem empty_batch_endpoints (u un : String) (names : List String) (today : String) :
    submit u un names today (JValue.arr []) =
      ⟨SubmitResult.errorResp "Invalid JSON object", [], []⟩ ∧
    submit_flock_logs u un (JValue.arr []) = (SubmitResult.success 0, []) :=
  ⟨rfl, rfl⟩

/-- C8: for a validated batch whose records all convert, `submit` issues
exactly one write per batch element, in order, into the current
processing date's partition `flock-<today>` with category tag
`"osquery"`, each record stamped with the submitter's username and
display name, and answers the success envelope with `processed_count`
equal to the batch length. -/
theorem submit_success_writes (u un : String) (names : List String) (today : String)
    (docsJ : List JValue) (ds' : List Doc)
    (hval : firstValidationError u 0 docsJ = none)
    (hm : mutateAll u un (docsJ.map toObjFields) = some ds')
    (hne : docsJ ≠ []) :
    submit u un names today (JValue.arr docsJ) =
      ⟨SubmitResult.success docsJ.length,
       ds'.map (fun x => ⟨"flock-" ++ today, "osquery", x⟩),
       classify u un names ds'⟩ ∧
    ds'.length = docsJ.length ∧
    ∀ d' ∈ ds', objLookup d' "username" = some (JValue.str u) ∧
                objLookup d' "user_name" = some (JValue.str un) := by
  have htr : truthy (JValue.arr docsJ) = true := by
    cases docsJ with
    | nil => exact absurd rfl hne
    | cons a l => rfl
  have hwl := writeLoop_eq_of_mutateAll today u un (docsJ.map toObjFields) ds' hm
  refine ⟨?_, ?_, ?_⟩
  · unfold submit
    rw [htr]
    show (match firstValidationError u 0 docsJ with
      | some msg => (⟨SubmitResult.errorResp msg, [], []⟩ : SubmitOutcome)
      | none =>
        let r := writeLoop today u un (List.map toObjFields docsJ)
        if r.2.2 = true then
          ⟨SubmitResult.success docsJ.length, r.2.1, classify u un names r.1⟩
        else ⟨SubmitResult.exn, r.2.1, []⟩) = _
    rw [hval]
    show (let r := writeLoop today u un (List.map toObjFields docsJ)
      if r.2.2 = true then
        (⟨SubmitResult.success docsJ.length, r.2.1, classify u un names r.1⟩ : SubmitOutcome)
      else ⟨SubmitResult.exn, r.2.1, []⟩) = _
    rw [hwl]
    rfl
  · rw [mutateAll_length u un (docsJ.map toObjFields) ds' hm, List.length_map]
  · intro d' hd'
    rcases mutateAll_mem u un (docsJ.map toObjFields) ds' hm d' hd' with ⟨d0, _, hmd⟩
    have hf := mutateDoc_fields u un d0 d' hmd
    exact ⟨hf.1, hf.2.1⟩

/-- Concrete instance of `submit_success_writes`. -/
theorem submit_success_writes_witness :
    submit "u" "U" ["K"] "2024-01-01"
      (JValue.arr [JValue.obj [("hostIdentifier", JValue.str "u"),
        ("name", JValue.str "K")]]) =
      ⟨SubmitResult.success 1,
       [⟨"flock-2024-01-01", "osquery",
         [("hostIdentifier", JValue.str "u"), ("name", JValue.str "K"),
          ("username", JValue.str "u"), ("user_name", JValue.str "U")]⟩],
       [("K", JValue.obj
         [("hostIdentifier", JValue.str "u"), ("name", JValue.str "K"),
          ("username", JValue.str "u"), ("user_name", JValue.str "U")])]⟩ :=
  (submit_success_writes "u" "U" ["K"] "2024-01-01"
    [JValue.obj [("hostIdentifier", JValue.str "u"), ("name", JValue.str "K")]]
    [[("hostIdentifier", JValue.str "u"), ("name", JValue.str "K"),
      ("username", JValue.str "u"), ("user_name", JValue.str "U")]]
    rfl rfl (by simp)).1

/-- Every record stored in a bucket of the grouping satisfies any
property all incoming records satisfy. -/
theorem insertGroup_all (P : Doc → Prop) :
    ∀ (gs : List (String × List Doc)) (k : String) (d : Doc),
      (∀ g ∈ gs, ∀ x ∈ g.2, P x) → P d →
      ∀ g ∈ insertGroup gs k d, ∀ x ∈ g.2, P x := by
  intro gs
  induction gs with
  | nil =>
    intro k d _ hd g hg x hx
    have hg1 : g = (k, [d]) := by simpa [insertGroup] using hg
    rw [hg1] at hx
    have hx1 : x = d := by simpa using hx
    rw [hx1]
    exact hd
  | cons g0 rest ih =>
    intro k d hgs hd g hg x hx
    obtain ⟨k', ds⟩ := g0
    unfold insertGroup at hg
    by_cases hk : (k' == k) = true
    · rw [if_pos hk] at hg
      rcases List.mem_cons.mp hg with h1 | h2
      · rw [h1] at hx
        rcases List.mem_append.mp hx with hx1 | hx2
        · exact hgs (k', ds) (List.mem_cons_self _ _) x hx1
        · have hx3 : x = d := by simpa using hx2
          rw [hx3]
          exact hd
      · exact hgs g (List.mem_cons_of_mem _ h2) x hx
    · rw [if_neg hk] at hg
      rcases List.mem_cons.mp hg with h1 | h2
      · exact hgs (k', ds) (List.mem_cons_self _ _) x (h1 ▸ hx)
      · exact ih k d (fun g' hg' => hgs g' (List.mem_cons_of_mem _ hg')) hd g h2 x hx

theorem groupByKind_all (P : Doc → Prop) (names : List String) :
    ∀ (docs : List Doc) (gs : List (String × List Doc)),
      (∀ g ∈ gs, ∀ x ∈ g.2, P x) → (∀ d ∈ docs, P d) →
      ∀ g ∈ docs.foldl (addDoc names) gs, ∀ x ∈ g.2, P x := by
  intro docs
  induction docs with
  | nil =>
    intro gs hgs _
    simpa using hgs
  | cons d rest ih =>
    intro gs hgs hdocs
    rw [List.foldl_cons]
    refine ih (addDoc names gs d) ?_ (fun d0 h => hdocs d0 (List.mem_cons_of_mem _ h))
    unfold addDoc
    cases hdk : docKind names d with
    | none => exact hgs
    | some k => exact insertGroup_all P gs k d hgs (hdocs d (List.mem_cons_self _ _))

/-- Events emitted by classification carry either a summary payload or
one of the classified records verbatim. -/
theorem classify_payload_shape (u un : String) (names : List String) (docs : List Doc)
    (P : Doc → Prop) (hP : ∀ d ∈ docs, P d) :
    ∀ e ∈ classify u un names docs,
      (∃ ds, e.2 = summaryPayload u un ds) ∨ (∃ d, P d ∧ e.2 = JValue.obj d) := by
  intro e he
  unfold classify at he
  rcases List.mem_flatten.mp he with ⟨l, hl, hel⟩
  rcases List.mem_map.mp hl with ⟨g, hg, rfl⟩
  have hall := groupByKind_all P names docs [] (by intro g' hg'; cases hg') hP g hg
  obtain ⟨k, ds⟩ := g
  rcases ds with _ | ⟨d1, _ | ⟨d2, t⟩⟩
  · simp [eventsFor] at hel
  · have he1 : e = (k, JValue.obj d1) := by simpa [eventsFor] using hel
    right
    exact ⟨d1, hall d1 (List.mem_cons_self _ _), by rw [he1]⟩
  · have he1 : e = (k, summaryPayload u un (d1 :: d2 :: t)) := by simpa [eventsFor] using hel
    left
    exact ⟨d1 :: d2 :: t, by rw [he1]⟩

/-- C10: on a successful `/submit`, the notification step runs on the
records after the write loop's in-place mutation: every emitted event is
either a summary, or a singleton carrying the mutated record — which
contains the injected `username` and `user_name` fields and, when the
submitted record carried `unixTime`, the derived `@timestamp` field. -/
theorem submit_notifs_mutated (u un : String) (names : List String) (today : String)
    (docsJ : List JValue) (ds' : List Doc)
    (hval : firstValidationError u 0 docsJ = none)
    (hm : mutateAll u un (docsJ.map toObjFields) = some ds')
    (hne : docsJ ≠ []) :
    (submit u un names today (JValue.arr docsJ)).notifs = classify u un names ds' ∧
    ∀ e ∈ (submit u un names today (JValue.arr docsJ)).notifs,
      (∃ ds, e.2 = summaryPayload u un ds) ∨
      (∃ d0 d', d0 ∈ docsJ.map toObjFields ∧ mutateDoc u un d0 = some d' ∧
        e.2 = JValue.obj d' ∧
        objLookup d' "username" = some (JValue.str u) ∧
        objLookup d' "user_name" = some (JValue.str un) ∧
        ((objLookup d0 "unixTime").isSome → (objLookup d' "@timestamp").isSome)) := by
  have heq : (submit u un names today (JValue.arr docsJ)).notifs = classify u un names ds' := by
    rw [(submit_success_writes u un names today docsJ ds' hval hm hne).1]
  refine ⟨heq, ?_⟩
  intro e he
  rw [heq] at he
  have hshape := classify_payload_shape u un names ds'
    (fun x => ∃ d0, d0 ∈ docsJ.map toObjFields ∧ mutateDoc u un d0 = some x)
    (fun x hx => mutateAll_mem u un (docsJ.map toObjFields) ds' hm x hx) e he
  rcases hshape with h | ⟨d', ⟨d0, hd0mem, hmd⟩, he2⟩
  · exact Or.inl h
  · right
    have hf := mutateDoc_fields u un d0 d' hmd
    exact ⟨d0, d', hd0mem, hmd, he2, hf.1, hf.2.1, hf.2.2⟩

/-- Concrete instance of `submit_notifs_mutated`: the singleton event's
payload carries the injected fields and the derived timestamp. -/
theorem submit_notifs_mutated_witness :
    (submit "u" "U" ["K"] "2024-01-01"
      (JValue.arr [JValue.obj [("hostIdentifier", JValue.str "u"),
        ("name", JValue.str "K"), ("unixTime", JValue.num 0)]])).notifs =
      classify "u" "U" ["K"]
        [[("hostIdentifier", JValue.str "u"), ("name", JValue.str "K"),
          ("unixTime", JValue.num 0),
          ("@timestamp", JValue.str "1970-01-01T00:00:00.000Z"),
          ("username", JValue.str "u"), ("user_name", JValue.str "U")]] :=
  (submit_notifs_mutated "u" "U" ["K"] "2024-01-01"
    [JValue.obj [("hostIdentifier", JValue.str "u"), ("name", JValue.str "K"),
      ("unixTime", JValue.num 0)]]
    [[("hostIdentifier", JValue.str "u"), ("name", JValue.str "K"),
      ("unixTime", JValue.num 0),
      ("@timestamp", JValue.str "1970-01-01T00:00:00.000Z"),
      ("username", JValue.str "u"), ("user_name", JValue.str "U")]]
    rfl rfl (by simp)).1

/-! ## The `unixTime` conversion step: failure and totality -/

/-- Counterexample to the claim that the timestamp-conversion step never
raises: a validated record whose `unixTime` is the non-numeric string
`"abc"` makes `int(doc["unixTime"])` raise, failing the whole request
(no write, no notification) instead of passing the record through. -/
theorem submit_unixTime_nonnumeric_raises :
    submit "u" "U" [] "2024-01-01"
      (JValue.arr [JValue.obj [("hostIdentifier", JValue.str "u"),
        ("unixTime", JValue.str "abc")]]) =
      ⟨SubmitResult.exn, [], []⟩ := rfl

/-- When every present `unixTime` converts to an in-range integer, the
whole mutation pass succeeds: records without `unixTime` pass through
(gaining only the two stamped fields), records with a numeric `unixTime`
gain the derived `@timestamp`. -/
theorem mutateAll_of_numeric (u un : String) :
    ∀ ds : List Doc,
      (∀ d ∈ ds, ∀ v, objLookup d "unixTime" = some v →
        ∃ n, pythonInt v = some n ∧ minDatetimeTS ≤ n ∧ n ≤ maxDatetimeTS) →
      ∃ ds', mutateAll u un ds = some ds' ∧
        List.Forall₂ (fun d d' =>
          (objLookup d "unixTime" = none ∧
            d' = objSet (objSet d "username" (JValue.str u)) "user_name" (JValue.str un)) ∨
          (∃ v n, objLookup d "unixTime" = some v ∧ pythonInt v = some n ∧
            objLookup d' "@timestamp" = some (JValue.str (formatTimestamp n)))) ds ds' := by
  intro ds
  induction ds with
  | nil => exact fun _ => ⟨[], rfl, List.Forall₂.nil⟩
  | cons d rest ih =>
    intro h
    obtain ⟨rest', hr, hfa⟩ := ih (fun d0 hd0 => h d0 (List.mem_cons_of_mem _ hd0))
    cases hl : objLookup d "unixTime" with
    | none =>
      have hcd : convertUnixTime d = some d := by unfold convertUnixTime; rw [hl]
      have hmd : mutateDoc u un d =
          some (objSet (objSet d "username" (JValue.str u)) "user_name" (JValue.str un)) := by
        unfold mutateDoc
        rw [hcd]
        rfl
      refine ⟨objSet (objSet d "username" (JValue.str u)) "user_name" (JValue.str un) :: rest',
        ?_, List.Forall₂.cons (Or.inl ⟨hl, rfl⟩) hfa⟩
      unfold mutateAll
      rw [hmd, hr]
      rfl
    | some v =>
      obtain ⟨n, hn, hn1, hn2⟩ := h d (List.mem_cons_self _ _) v hl
      have hcd : convertUnixTime d =
          some (objSet d "@timestamp" (JValue.str (formatTimestamp n))) := by
        unfold convertUnixTime
        rw [hl]
        show (match pythonInt v with
          | none => none
          | some m =>
            if minDatetimeTS ≤ m ∧ m ≤ maxDatetimeTS then
              some (objSet d "@timestamp" (JValue.str (formatTimestamp m)))
            else none) = some (objSet d "@timestamp" (JValue.str (formatTimestamp n)))
        rw [hn]
        show (if minDatetimeTS ≤ n ∧ n ≤ maxDatetimeTS then
            some (objSet d "@timestamp" (JValue.str (formatTimestamp n)))
          else none) = some (objSet d "@timestamp" (JValue.str (formatTimestamp n)))
        rw [if_pos ⟨hn1, hn2⟩]
      have hmd : mutateDoc u un d =
          some (objSet (objSet (objSet d "@timestamp" (JValue.str (formatTimestamp n)))
            "username" (JValue.str u)) "user_name" (JValue.str un)) := by
        unfold mutateDoc
        rw [hcd]
        rfl
      refine ⟨objSet (objSet (objSet d "@timestamp" (JValue.str (formatTimestamp n)))
          "username" (JValue.str u)) "user_name" (JValue.str un) :: rest',
        ?_, List.Forall₂.cons (Or.inr ⟨v, n, hl, hn, ?_⟩) hfa⟩
      · unfold mutateAll
        rw [hmd, hr]
        rfl
      · rw [objLookup_objSet_ne _ _ _ _ (by decide), objLookup_objSet_ne _ _ _ _ (by decide),
          objLookup_objSet_self]

/-- C7 (amended): for a validated batch, the per-record conversion step
derives the canonical timestamp from every present, numeric, in-range
`unixTime` and silently passes records without `unixTime` through (never
a validation failure); under those conditions the request succeeds.  A
present but non-numeric `unixTime` instead raises
(`submit_unixTime_nonnumeric_raises`). -/
theorem submit_unixTime_conversion (u un : String) (names : List String) (today : String)
    (docsJ : List JValue)
    (hval : firstValidationError u 0 docsJ = none)
    (hne : docsJ ≠ [])
    (hnum : ∀ d ∈ docsJ.map toObjFields, ∀ v, objLookup d "unixTime" = some v →
      ∃ n, pythonInt v = some n ∧ minDatetimeTS ≤ n ∧ n ≤ maxDatetimeTS) :
    ∃ ds', mutateAll u un (docsJ.map toObjFields) = some ds' ∧
      (submit u un names today (JValue.arr docsJ)).result =
        SubmitResult.success docsJ.length ∧
      List.Forall₂ (fun d d' =>
        (objLookup d "unixTime" = none ∧
          d' = objSet (objSet d "username" (JValue.str u)) "user_name" (JValue.str un)) ∨
        (∃ v n, objLookup d "unixTime" = some v ∧ pythonInt v = some n ∧
          objLookup d' "@timestamp" = some (JValue.str (formatTimestamp n))))
        (docsJ.map toObjFields) ds' := by
  obtain ⟨ds', hm, hfa⟩ := mutateAll_of_numeric u un (docsJ.map toObjFields) hnum
  refine ⟨ds', hm, ?_, hfa⟩
  rw [(submit_success_writes u un names today docsJ ds' hval hm hne).1]

/-- Concrete instance of `submit_unixTime_conversion`: one record with a
numeric `unixTime`, one without; the request succeeds. -/
theorem submit_unixTime_conversion_witness :
    (submit "u" "U" [] "2024-01-01"
      (JValue.arr
        [JValue.obj [("hostIdentifier", JValue.str "u"),
          ("unixTime", JValue.num 1602279946)],
         JValue.obj [("hostIdentifier", JValue.str "u")]])).result =
      SubmitResult.success 2 := by
  obtain ⟨ds', hm, hres, hfa⟩ := submit_unixTime_conversion "u" "U" [] "2024-01-01"
    [JValue.obj [("hostIdentifier", JValue.str "u"), ("unixTime", JValue.num 1602279946)],
     JValue.obj [("hostIdentifier", JValue.str "u")]]
    rfl (by simp)
    (by
      intro d hd v hv
      have hd2 : d ∈ [[("hostIdentifier", JValue.str "u"), ("unixTime", JValue.num 1602279946)],
        [("hostIdentifier", JValue.str "u")]] := hd
      rcases List.mem_cons.mp hd2 with h1 | h2
      · subst h1
        have hveq : JValue.num 1602279946 = v := Option.some_inj.mp hv
        subst hveq
        exact ⟨1602279946, rfl, by decide, by decide⟩
      · have h3 : d = [("hostIdentifier", JValue.str "u")] := by simpa using h2
        subst h3
        exact Option.noConfusion hv)
  exact hres

/-! ## The twig-notification `KeyError` of `submit_flock_logs` -/

/-- C4: a record of type `twigs_enabled` with a `timestamp` but no
`twig_ids` field passes validation, but building its notification reads
`doc["twig_ids"]` and raises a `KeyError`: the request fails with an
unhandled error instead of returning the success envelope with
`processed_count = 1`. -/
theorem submit_flock_logs_twigs_missing_ids :
    submit_flock_logs "u" "U"
      (JValue.arr [JValue.obj [("type", JValue.str "twigs_enabled"),
        ("timestamp", JValue.str "now")]]) =
      (SubmitResult.exn, []) := rfl
